import Mathlib

/-!
Verification of the safety policy hooks of the claude-code plugin
collection: the pre-tool-use command/file classifiers
(block-dangerous-commands, protect-secrets), the post-tool-use
auto-stage hook, and the legacy rm-to-mv shell hook.

The two pre-tool-use classifier scripts ship only with their test files
in this tree, so their data model and algorithm are modelled from the
specification (and the constants the tests pin down); the auto-stage
hook and the rm-to-mv hook are embedded from their sources.
-/

/-- Whitespace recognizer used for command normalization and tokenizing,
matching the POSIX space class on the characters that occur in commands. -/
def isWhite (c : Char) : Bool :=
  c = ' ' || c = Char.ofNat 9 || c = Char.ofNat 10 || c = Char.ofNat 13

/-- A double or single quote character. -/
def quoteChar (c : Char) : Bool := c = Char.ofNat 34 || c = Char.ofNat 39

/-- Modelled from the spec: input normalization is a trim of surrounding
whitespace (spec section 4.3 step 1). -/
def normalizeInput (s : String) : String :=
  ⟨((s.data.dropWhile isWhite).reverse.dropWhile isWhite).reverse⟩

/-- Boolean check that the first list is a leading segment of the second. -/
def leadsWith : List Char → List Char → Bool
  | [], _ => true
  | _ :: _, [] => false
  | a :: as, b :: bs => a = b && leadsWith as bs

/-- Boolean check that the first list occurs contiguously inside the second. -/
def hasSub (n : List Char) : List Char → Bool
  | [] => leadsWith n []
  | c :: rest => leadsWith n (c :: rest) || hasSub n rest

/-- Split a character list into maximal runs of non-whitespace characters;
the accumulator holds the current token reversed. -/
def splitTok (acc : List Char) : List Char → List (List Char)
  | [] => if acc.isEmpty then [] else [acc.reverse]
  | c :: rest =>
    if isWhite c then
      if acc.isEmpty then splitTok [] rest else acc.reverse :: splitTok [] rest
    else splitTok (c :: acc) rest

/-- Strip one layer of surrounding quotes from a token, mirroring how the
command rules see through incidental shell quoting. -/
def stripQ (t : List Char) : List Char :=
  let t1 := match t with
    | c :: rest => if quoteChar c then rest else t
    | [] => []
  match t1.reverse with
  | c :: rest => if quoteChar c then rest.reverse else t1
  | [] => t1

/-- Token membership in a command: some whitespace-delimited token, after
quote stripping, equals the given word. -/
def hasTok (w : String) (c : String) : Bool :=
  (splitTok [] c.data).any (fun t => stripQ t = w.data)

/-- The final path component: the characters after the last slash. -/
def basenameL (l : List Char) : List Char :=
  l.foldl (fun acc c => if c = '/' then [] else acc ++ [c]) []

/-- Severity levels of the rule catalogs, ordered critical < high < strict. -/
inductive Severity where
  | critical
  | high
  | strict
deriving DecidableEq, Fintype

/-- Modelled from the spec: the integer rank of each severity level
(critical=1, high=2, strict=3), as also pinned by the config tests of the
two classifier scripts, whose implementations are not in this tree. -/
def LEVELS : Severity → Nat
  | .critical => 1
  | .high => 2
  | .strict => 3

/-- Modelled from the spec: the configured level string is read from the
environment; unset, unknown or malformed values fail closed to high. -/
def parseSafetyLevel (s : Option String) : Severity :=
  match s with
  | some v =>
    if v = "critical" then .critical
    else if v = "high" then .high
    else if v = "strict" then .strict
    else .high
  | none => .high

/-- The process-wide default safety level (environment variable unset). -/
def SAFETY_LEVEL : Severity := parseSafetyLevel none

/-- Modelled from the spec: a rule is active iff its rank is at most the
rank of the configured level (spec section 4.1). -/
def isActive (ruleLevel configured : Severity) : Bool :=
  Nat.ble (LEVELS ruleLevel) (LEVELS configured)

/-- A classification rule: id, severity tier, compiled matcher, reason. -/
structure Rule where
  id : String
  level : Severity
  matcher : String → Bool
  reason : String

/-- The decision returned by a classifier: blocked flag, the matched rule
(called pattern in the scripts), and the human readable reason. -/
structure Decision where
  blocked : Bool
  pattern : Option Rule
  reason : Option String

/-- The decision that lets the operation proceed. -/
def allowDecision : Decision := ⟨false, none, none⟩

/-- A rule fires on a normalized input when it is active at the configured
level and its matcher accepts the input. -/
def ruleHits (lvl : Severity) (t : String) (r : Rule) : Bool :=
  isActive r.level lvl && r.matcher t

/-- First rule of the list that fires, in declared order. -/
def findRule (lvl : Severity) (t : String) : List Rule → Option Rule
  | [] => none
  | r :: rest => if ruleHits lvl t r then some r else findRule lvl t rest

/-- Some allowlist entry accepts the normalized input. -/
def allowMatches (allow : List (String → Bool)) (t : String) : Bool :=
  allow.any (fun a => a t)

/-- Modelled from the spec: the per-domain classifier. Normalize, check
the allowlist first (short-circuit to allowed), then scan the rule list
in declared order and block on the first active match (spec section 4.3).
The classifier implementations are not in this tree, only their tests. -/
def classify (allow : List (String → Bool)) (rules : List Rule)
    (s : String) (lvl : Severity) : Decision :=
  if allowMatches allow (normalizeInput s) then allowDecision
  else
    match findRule lvl (normalizeInput s) rules with
    | some r => ⟨true, some r, some r.reason⟩
    | none => allowDecision

/-- Modelled from the spec: the basenames the allowlist recognizes as
template or example env files, which must never be blocked. -/
def envExampleNames : List String :=
  [".env.example", ".env.sample", ".env.template", ".env.schema",
   ".env.defaults", "env.example", "example.env"]

/-- A token denotes an env file: its basename is .env or starts .env. -/
def envLikeBase (t : List Char) : Bool :=
  let b := basenameL (stripQ t)
  b = ".env".data || leadsWith ".env.".data b

/-- Modelled from the spec: the allowlist of the protect-secrets script
(one pattern list applied to both file paths and command strings):
template and example env files, the benign .ssh/config path, and the
envsubst utility; implementation not in this tree, only its tests. -/
def ALLOWLIST : List (String → Bool) :=
  [ fun s => envExampleNames.any (fun n => hasSub n.data s.data),
    fun s => hasSub ".ssh/config".data s.data,
    fun s => hasTok "envsubst" s ]

/-- Modelled from the spec: file rule for .env files (critical tier). -/
def envFileRule : Rule :=
  ⟨"env-file", Severity.critical,
   fun p =>
     let b := basenameL p.data
     b = ".env".data || leadsWith ".env.".data b,
   "Cannot access .env files: risk of secret exposure"⟩

/-- Modelled from the spec: file rule for SSH private keys (critical). -/
def sshPrivateKeyRule : Rule :=
  ⟨"ssh-private-key", Severity.critical,
   fun p => hasSub ".ssh/id_".data p.data,
   "Cannot access SSH private keys"⟩

/-- Modelled from the spec: broad database config rule, strict tier. -/
def databaseConfigRule : Rule :=
  ⟨"database-config", Severity.strict,
   fun p =>
     basenameL p.data = "database.yml".data ||
     basenameL p.data = "database.json".data,
   "Database configuration may contain credentials"⟩

/-- Modelled from the spec: the ordered file-path rule catalog of the
protect-secrets script (most specific and dangerous first). -/
def SENSITIVE_FILES : List Rule :=
  [envFileRule, sshPrivateKeyRule, databaseConfigRule]

/-- Modelled from the spec: command rule for rm aimed at the home
directory itself; the safe-subpath case (a token such as a path below the
home directory) is deliberately not matched. -/
def rmHomeRule : Rule :=
  ⟨"rm-home", Severity.critical,
   fun c => hasTok "rm" c && (hasTok "~" c || hasTok "~/" c),
   "Dangerous: rm targeting home directory"⟩

/-- Modelled from the spec: rm aimed at home through variable indirection. -/
def rmHomeVarRule : Rule :=
  ⟨"rm-home-var", Severity.critical,
   fun c => hasTok "rm" c && hasTok "$HOME" c,
   "Dangerous: rm targeting home directory via HOME variable"⟩

/-- Modelled from the spec: the ordered command rule catalog of the
block-dangerous-commands script (the rules the claims exercise). -/
def PATTERNS : List Rule := [rmHomeRule, rmHomeVarRule]

/-- The words that read a file onto the terminal. -/
def readerWords : List String := ["cat", "less", "head", "tail", "more"]

/-- Modelled from the spec: command rule for reading .env files with a
pager or cat (critical tier in the protect-secrets catalog). -/
def catEnvRule : Rule :=
  ⟨"cat-env", Severity.critical,
   fun c =>
     (readerWords.any (fun w => hasTok w c)) &&
     ((splitTok [] c.data).any envLikeBase),
   "Cannot read .env files: secret exposure risk"⟩

/-- Modelled from the spec: recursive grep for passwords or secrets,
strict tier (opt-in, not part of the default level). -/
def grepPasswordRule : Rule :=
  ⟨"grep-password", Severity.strict,
   fun c =>
     hasTok "grep" c && (hasTok "-r" c || hasTok "--recursive" c) &&
     (hasTok "password" c || hasTok "secret" c),
   "Recursive grep may surface passwords or secrets"⟩

/-- Modelled from the spec: the ordered shell-command rule catalog of the
protect-secrets script (the rules the claims exercise). -/
def BASH_PATTERNS : List Rule := [catEnvRule, grepPasswordRule]

/-- Modelled from the spec: allowlist membership of an input string. -/
def isAllowlisted (s : String) : Bool :=
  allowMatches ALLOWLIST (normalizeInput s)

/-- Modelled from the spec: the file-path classifier of protect-secrets. -/
def checkFilePath (p : String) (lvl : Severity) : Decision :=
  classify ALLOWLIST SENSITIVE_FILES p lvl

/-- Modelled from the spec: the command classifier of protect-secrets. -/
def checkBashCommand (c : String) (lvl : Severity) : Decision :=
  classify ALLOWLIST BASH_PATTERNS c lvl

/-- Modelled from the spec: the command classifier of the
block-dangerous-commands script, which carries no allowlist. -/
def checkCommand (c : String) (lvl : Severity) : Decision :=
  classify [] PATTERNS c lvl

/-- The tool_input record of a hook request, with the two fields the
dispatcher reads. -/
structure ToolInput where
  file_path : Option String
  command : Option String

/-- Modelled from the spec: the dispatcher of protect-secrets. File tools
go to the file classifier, Bash to the command classifier; any other tool
and any missing or empty target fail open (spec section 4.4). -/
def check (toolName : Option String) (input : ToolInput) (lvl : Severity) :
    Decision :=
  if toolName = some "Read" ∨ toolName = some "Edit" ∨ toolName = some "Write"
  then
    match input.file_path with
    | some p => if p = "" then allowDecision else checkFilePath p lvl
    | none => allowDecision
  else if toolName = some "Bash" then
    match input.command with
    | some c => if c = "" then allowDecision else checkBashCommand c lvl
    | none => allowDecision
  else allowDecision

/-- The single JSON record a pre-tool-use hook writes: either the empty
no-opinion record or a structured deny with a reason. -/
inductive OutRecord where
  | empty : OutRecord
  | deny (decision : String) (reason : String) : OutRecord
deriving DecidableEq

/-- Modelled from the spec: the decision protocol adapter (spec section
4.5); a blocked decision becomes a deny record carrying the reason and
the rule id, anything else the empty record. -/
def render (d : Decision) : OutRecord :=
  if d.blocked then
    match d.pattern with
    | some r => OutRecord.deny "deny" (r.reason ++ " [" ++ r.id ++ "]")
    | none => OutRecord.deny "deny" (d.reason.getD "")
  else OutRecord.empty

/-- The parsed request record a pre-tool-use hook receives. -/
structure HookInput where
  tool_name : Option String
  tool_input : ToolInput

/-- Modelled from the spec: the top level of a classifier hook process,
after JSON parsing (none encodes a malformed request body). It always
writes exactly one record and exits 0; malformed input yields the empty
record (spec section 6). The script main functions are not in this tree,
only the integration tests that spawn them. -/
def runHookMain (lvl : Severity) (parsed : Option HookInput) :
    List OutRecord × Nat :=
  match parsed with
  | none => ([OutRecord.empty], 0)
  | some h => ([render (check h.tool_name h.tool_input lvl)], 0)

/-- The environment the auto-stage hook runs against: the git queries it
makes, the process working directory, and whether appending to the audit
log file throws (hooks/post-tool-use/auto-stage.js). -/
structure StageEnv where
  isInGitRepo : String → Bool
  stageSuccess : String → Bool
  processCwd : String
  logFails : Bool

/-- The parsed request record the auto-stage hook reads. -/
structure AutoStageInput where
  tool_name : Option String
  file_path : Option String
  cwd : Option String

/-- The observable outcome of one hook process run: the records written
to stdout, the audit-log lines appended, and the exit status. -/
structure HookRun where
  stdout : List String
  logs : List String
  exitCode : Nat
deriving DecidableEq

/-- The log helper of auto-stage.js: appends one line, swallowing any
error of its own, so a failing log file yields no line and no exception. -/
def emitLog (env : StageEnv) (entry : String) : List String :=
  if env.logFails then [] else [entry]

/-- A path is absolute when it starts with a slash. -/
def isAbsolutePath (p : String) : Bool := leadsWith ['/'] p.data

/-- The main function of hooks/post-tool-use/auto-stage.js: skip non
Edit/Write tools, skip a missing file_path, resolve the path, skip files
outside a git repository, otherwise stage and log the result; every
branch prints the empty record once and the process exits 0. -/
def autoStageMain (env : StageEnv) (parsed : Option AutoStageInput) :
    HookRun :=
  match parsed with
  | none => ⟨["\x7b\x7d"], emitLog env "ERROR parse", 0⟩
  | some d =>
    if d.tool_name = some "Edit" ∨ d.tool_name = some "Write" then
      match d.file_path with
      | none => ⟨["\x7b\x7d"], emitLog env "SKIP no file_path", 0⟩
      | some fp =>
        if fp = "" then ⟨["\x7b\x7d"], emitLog env "SKIP no file_path", 0⟩
        else
          let absPath :=
            if isAbsolutePath fp then fp
            else (d.cwd.getD env.processCwd) ++ "/" ++ fp
          if env.isInGitRepo absPath then
            if env.stageSuccess absPath then
              ⟨["\x7b\x7d"], emitLog env "STAGED", 0⟩
            else ⟨["\x7b\x7d"], emitLog env "ERROR stage", 0⟩
          else ⟨["\x7b\x7d"], emitLog env "SKIP not in git repo", 0⟩
    else ⟨["\x7b\x7d"], [], 0⟩

/-- A short rm flag character, the class [rfivRI] of the hook's regexes. -/
def flagChar (c : Char) : Bool :=
  c = 'r' || c = 'f' || c = 'i' || c = 'v' || c = 'R' || c = 'I'

/-- A lower-case letter or dash, the class [a-z-] of the sed expression. -/
def lowerOrDash (c : Char) : Bool :=
  (Nat.ble 97 c.toNat && Nat.ble c.toNat 122) || c = '-'

/-- One short flag group of the hook's regexes: a dash, one or more
characters of [rfivRI], then one or more whitespace characters; returns
the remainder after the whitespace when it matches. -/
def parseFlagGroup : List Char → Option (List Char)
  | '-' :: rest =>
    match rest with
    | c :: _ =>
      if flagChar c then
        match rest.dropWhile flagChar with
        | w :: r2 => if isWhite w then some ((w :: r2).dropWhile isWhite) else none
        | [] => none
      else none
    | [] => none
  | _ => none

/-- One long flag group of the sed expression: two dashes, one or more
characters of [a-z-], then one or more whitespace characters. -/
def parseLongFlag : List Char → Option (List Char)
  | '-' :: '-' :: rest =>
    match rest with
    | c :: _ =>
      if lowerOrDash c then
        match rest.dropWhile lowerOrDash with
        | w :: r2 => if isWhite w then some ((w :: r2).dropWhile isWhite) else none
        | [] => none
      else none
    | [] => none
  | _ => none

/-- The target alternatives of the block regexes: a slash-star, a slash
followed by one whitespace character, or a tilde. -/
def altMatch (l : List Char) : Bool :=
  leadsWith ['/', '*'] l ||
  (match l with
   | a :: b :: _ => a = '/' && isWhite b
   | _ => false) ||
  leadsWith ['~'] l

/-- Zero or more short flag groups followed by a target alternative; the
fuel bounds the number of groups and exceeds any input's length. -/
def starThenAltF : Nat → List Char → Bool
  | 0, _ => false
  | fuel + 1, l =>
    altMatch l ||
    (match parseFlagGroup l with
     | some l2 => starThenAltF fuel l2
     | none => false)

/-- The first block regex of the rm-to-mv hook, checked at one position:
rm, whitespace, zero or more short flag groups, then a target. -/
def b1At (l : List Char) : Bool :=
  match l with
  | 'r' :: 'm' :: rest =>
    match rest with
    | c :: _ =>
      isWhite c && starThenAltF (rest.length + 1) (rest.dropWhile isWhite)
    | [] => false
  | _ => false

/-- The second block regex of the rm-to-mv hook, checked at one position:
rm, whitespace, a dash, a run of non-whitespace containing r or f, then
whitespace and a target. -/
def b2At (l : List Char) : Bool :=
  match l with
  | 'r' :: 'm' :: rest =>
    match rest with
    | c :: _ =>
      isWhite c &&
      (match rest.dropWhile isWhite with
       | '-' :: r2 =>
         ((r2.takeWhile (fun d => !isWhite d)).any
            (fun d => d = 'r' || d = 'f')) &&
         (match r2.dropWhile (fun d => !isWhite d) with
          | w :: r3 => isWhite w && altMatch ((w :: r3).dropWhile isWhite)
          | [] => false)
       | _ => false)
    | [] => false
  | _ => false

/-- Unanchored search: the check succeeds at some suffix of the input. -/
def searchAny (f : List Char → Bool) : List Char → Bool
  | [] => f []
  | c :: rest => f (c :: rest) || searchAny f rest

/-- The rm detection of the hook: optional leading whitespace, rm, then a
whitespace character. -/
def isRmCmd (l : List Char) : Bool :=
  match l.dropWhile isWhite with
  | 'r' :: 'm' :: c :: _ => isWhite c
  | _ => false

/-- The flag stripping loop of the hook's sed expression: repeatedly
remove a short or a long flag group; fuel bounds the iteration count. -/
def stripFlags : Nat → List Char → List Char
  | 0, l => l
  | fuel + 1, l =>
    match parseFlagGroup l with
    | some l2 => stripFlags fuel l2
    | none =>
      match parseLongFlag l with
      | some l2 => stripFlags fuel l2
      | none => l

/-- The sed substitution of the hook applied to an rm command: strip the
leading whitespace, the rm word, and every flag group, leaving the files
part of the command. -/
def sedStrip (l : List Char) : List Char :=
  match l.dropWhile isWhite with
  | 'r' :: 'm' :: rest =>
    match rest with
    | w :: _ =>
      if isWhite w then stripFlags rest.length (rest.dropWhile isWhite)
      else l
    | [] => l
  | _ => l

/-- The record the rm-to-mv hook writes when it writes one: a block with
a reason, or an allow carrying the rewritten command. -/
inductive RmOut where
  | block (reason : String) : RmOut
  | allow (updatedCommand : String) : RmOut
deriving DecidableEq

/-- The block reason string of the rm-to-mv hook. -/
def rmBlockReason : String :=
  "BLOCKED: Dangerous rm command detected. Refusing to execute commands that could delete system or home directory."

/-- The rm-to-mv hook of hooks/rm_to_mv_hook.sh (embedded at the end of
src/hooks/notification/notify-permission.js): non-Bash tools and empty
or non-rm commands produce no output record; rm commands matching either
block regex produce a block record; every other rm command is rewritten
to a mkdir-and-mv into a timestamped trash directory. The timestamp is a
parameter. -/
def rmToMvHook (ts toolName command : String) : Option RmOut :=
  if toolName ≠ "Bash" then none
  else if command = "" then none
  else if isRmCmd command.data then
    if searchAny b1At command.data || searchAny b2At command.data then
      some (RmOut.block rmBlockReason)
    else
      some (RmOut.allow
        ("mkdir -p /tmp/rm_trash_" ++ ts ++ " && mv " ++
         (⟨sedStrip command.data⟩ : String) ++ " /tmp/rm_trash_" ++ ts ++ "/"))
  else none

/-- The rule-scan of the classifier as a relation: the scan of a rule
list yields the first rule that fires, or none. -/
inductive FindSpec (lvl : Severity) (t : String) : List Rule → Option Rule → Prop
  | nil : FindSpec lvl t [] none
  | head (r : Rule) (rest : List Rule) :
      ruleHits lvl t r = true → FindSpec lvl t (r :: rest) (some r)
  | tail (r : Rule) (rest : List Rule) (o : Option Rule) :
      ruleHits lvl t r = false → FindSpec lvl t rest o →
      FindSpec lvl t (r :: rest) o

/-- One classification run as a relation over its observable decision:
allowlist short-circuit, first firing rule, or no match. -/
inductive ClassifiesTo (allow : List (String → Bool)) (rules : List Rule)
    (s : String) (lvl : Severity) : Decision → Prop
  | allowed :
      allowMatches allow (normalizeInput s) = true →
      ClassifiesTo allow rules s lvl ⟨false, none, none⟩
  | ruleBlock (r : Rule) :
      allowMatches allow (normalizeInput s) = false →
      FindSpec lvl (normalizeInput s) rules (some r) →
      ClassifiesTo allow rules s lvl ⟨true, some r, some r.reason⟩
  | noMatch :
      allowMatches allow (normalizeInput s) = false →
      FindSpec lvl (normalizeInput s) rules none →
      ClassifiesTo allow rules s lvl ⟨false, none, none⟩

/-- The rule-scan relation is deterministic. -/
lemma findSpec_det {lvl : Severity} {t : String} {rules : List Rule}
    {o1 o2 : Option Rule} (h1 : FindSpec lvl t rules o1)
    (h2 : FindSpec lvl t rules o2) : o1 = o2 := by
  induction h1 generalizing o2 with
  | nil => cases h2; rfl
  | head r rest hr =>
    cases h2 with
    | head => rfl
    | tail _ _ _ hf _ => rw [hr] at hf; cases hf
  | tail r rest o hr _ ih =>
    cases h2 with
    | head _ _ hr2 => rw [hr] at hr2; cases hr2
    | tail _ _ _ _ h2tl => exact ih h2tl

/-- The function findRule realizes the rule-scan relation. -/
lemma findSpec_total (lvl : Severity) (t : String) :
    ∀ rules : List Rule, FindSpec lvl t rules (findRule lvl t rules) := by
  intro rules
  induction rules with
  | nil => exact FindSpec.nil
  | cons r rest ih =>
    cases h : ruleHits lvl t r with
    | true =>
      simpa only [findRule, h, if_true] using FindSpec.head r rest h
    | false =>
      simpa only [findRule, h, Bool.false_eq_true, if_false]
        using FindSpec.tail r rest _ h ih

/-- The function classify realizes the classification relation. -/
lemma classifiesTo_total (allow : List (String → Bool)) (rules : List Rule)
    (s : String) (lvl : Severity) :
    ClassifiesTo allow rules s lvl (classify allow rules s lvl) := by
  unfold classify
  cases hA : allowMatches allow (normalizeInput s) with
  | true =>
    simpa only [hA, if_true] using
      (ClassifiesTo.allowed hA : ClassifiesTo allow rules s lvl ⟨false, none, none⟩)
  | false =>
    simp only [hA, Bool.false_eq_true, if_false]
    cases hF : findRule lvl (normalizeInput s) rules with
    | none =>
      exact ClassifiesTo.noMatch hA (hF ▸ findSpec_total lvl (normalizeInput s) rules)
    | some r =>
      exact ClassifiesTo.ruleBlock r hA (hF ▸ findSpec_total lvl (normalizeInput s) rules)

/-- When some rule at index i fires, findRule returns a firing rule whose
index is at most i: the scan is first-match in declared order. -/
lemma findRule_first (lvl : Severity) (t : String) :
    ∀ (rules : List Rule) (i : Nat) (r : Rule),
      rules[i]? = some r → ruleHits lvl t r = true →
      ∃ k m, k ≤ i ∧ rules[k]? = some m ∧ ruleHits lvl t m = true ∧
        findRule lvl t rules = some m := by
  intro rules
  induction rules with
  | nil => intro i r hi; simp at hi
  | cons hd tl ih =>
    intro i r hi hr
    cases h : ruleHits lvl t hd with
    | true =>
      refine ⟨0, hd, Nat.zero_le i, by simp, h, ?_⟩
      simp only [findRule, h, if_true]
    | false =>
      cases i with
      | zero =>
        simp only [List.getElem?_cons_zero, Option.some.injEq] at hi
        rw [hi] at h; rw [h] at hr; cases hr
      | succ n =>
        simp only [List.getElem?_cons_succ] at hi
        obtain ⟨k, m, hk, hget, hhit, hfind⟩ := ih n r hi hr
        refine ⟨k + 1, m, Nat.succ_le_succ hk, ?_, hhit, ?_⟩
        · simpa only [List.getElem?_cons_succ] using hget
        · simp only [findRule, h, Bool.false_eq_true, if_false]; exact hfind

/-- Every run of the auto-stage hook prints exactly the empty record and
exits 0, whatever the environment and the parsed input. -/
lemma autoStage_shape (env : StageEnv) (parsed : Option AutoStageInput) :
    (autoStageMain env parsed).stdout = ["\x7b\x7d"] ∧
    (autoStageMain env parsed).exitCode = 0 := by
  cases parsed with
  | none => exact ⟨rfl, rfl⟩
  | some d =>
    refine ⟨?_, ?_⟩ <;> (simp only [autoStageMain]; repeat' split) <;> rfl

/-- C1: the safety-level resolver isActive returns true iff the rule
level's rank is at most the configured level's rank under critical=1,
high=2, strict=3; Critical rules are active at every configured level,
High rules exactly at high or strict, Strict rules exactly at strict, and
an unset, unknown or malformed configured level parses to High. -/
theorem isActive_iff_rank_le :
    (∀ r c : Severity, isActive r c = true ↔ LEVELS r ≤ LEVELS c)
    ∧ (∀ c : Severity, isActive Severity.critical c = true)
    ∧ (∀ c : Severity,
        isActive Severity.high c = true ↔ (c = Severity.high ∨ c = Severity.strict))
    ∧ (∀ c : Severity, isActive Severity.strict c = true ↔ c = Severity.strict)
    ∧ (∀ s : String, s ∉ (["critical", "high", "strict"] : List String) →
        parseSafetyLevel (some s) = Severity.high)
    ∧ parseSafetyLevel none = Severity.high := by
  refine ⟨by decide, by decide, by decide, by decide, ?_, rfl⟩
  intro s hs
  have h1 : ¬s = "critical" := fun e => hs (by simp [e])
  have h2 : ¬s = "high" := fun e => hs (by simp [e])
  have h3 : ¬s = "strict" := fun e => hs (by simp [e])
  simp only [parseSafetyLevel, if_neg h1, if_neg h2, if_neg h3]

/-- Witness for isActive_iff_rank_le: the malformed level medium is not
one of the recognized names and parses to High. -/
theorem isActive_iff_rank_le_witness :
    "medium" ∉ (["critical", "high", "strict"] : List String) ∧
    parseSafetyLevel (some "medium") = Severity.high :=
  ⟨by decide, isActive_iff_rank_le.2.2.2.2.1 "medium" (by decide)⟩

/-- C6: severity activation is monotone: a rule active at configured
level High is active at Strict, and raising the configured rank never
deactivates a rule. -/
theorem severity_monotone :
    (∀ r : Severity,
      isActive r Severity.high = true → isActive r Severity.strict = true)
    ∧ (∀ r c c' : Severity,
        LEVELS c ≤ LEVELS c' → isActive r c = true → isActive r c' = true) := by
  constructor
  · decide
  · decide

/-- Witness for severity_monotone: a High rule active at High stays
active at Strict, and raising high to strict keeps a critical rule
active. -/
theorem severity_monotone_witness :
    isActive Severity.high Severity.strict = true ∧
    isActive Severity.critical Severity.strict = true :=
  ⟨severity_monotone.1 Severity.high (by decide),
   severity_monotone.2 Severity.critical Severity.high Severity.strict
     (by decide) (by decide)⟩

/-- C2: any input accepted by some allowlist entry of its domain is never
blocked, whatever the severity level and whatever rules also match; in
particular the path .env.example and the command cat .env.template are
never blocked at any level. -/
theorem allowlist_precedence :
    (∀ (allow : List (String → Bool)) (rules : List Rule) (s : String)
       (lvl : Severity),
       allowMatches allow (normalizeInput s) = true →
       (classify allow rules s lvl).blocked = false)
    ∧ (∀ lvl : Severity, isAllowlisted ".env.example" = true ∧
        (checkFilePath ".env.example" lvl).blocked = false)
    ∧ (∀ lvl : Severity, isAllowlisted "cat .env.template" = true ∧
        (checkBashCommand "cat .env.template" lvl).blocked = false) := by
  refine ⟨?_, ?_, ?_⟩
  · intro allow rules s lvl h
    simp only [classify, h, if_true]
    rfl
  · intro lvl; exact ⟨by decide, rfl⟩
  · intro lvl; exact ⟨by decide, rfl⟩

/-- Witness for allowlist_precedence: .env.example matches the allowlist
and even with the full sensitive-file catalog at strict level the
decision is not blocked. -/
theorem allowlist_precedence_witness :
    allowMatches ALLOWLIST (normalizeInput ".env.example") = true ∧
    (classify ALLOWLIST SENSITIVE_FILES ".env.example" Severity.strict).blocked
      = false :=
  ⟨by decide,
   allowlist_precedence.1 ALLOWLIST SENSITIVE_FILES ".env.example"
     Severity.strict (by decide)⟩

/-- C3: the concrete scenarios at the default (high) severity level: rm
-rf of the home directory is blocked with a reason naming the home
directory while the safe subpath is allowed; cat .env is blocked with a
reason naming secret exposure while cat .env.example is allowed;
recursive grep for password is allowed at high and blocked at strict; a
read of an SSH private key is blocked under the ssh-private-key rule
while its sibling config file is allowed. -/
theorem concrete_scenarios_default_level :
    SAFETY_LEVEL = Severity.high
    ∧ (checkCommand "rm -rf ~/" Severity.high).blocked = true
    ∧ hasSub "home directory".data
        (((checkCommand "rm -rf ~/" Severity.high).reason.getD "").data) = true
    ∧ (checkCommand "rm -rf ~/Documents" Severity.high).blocked = false
    ∧ (checkBashCommand "cat .env" Severity.high).blocked = true
    ∧ hasSub "secret exposure".data
        (((checkBashCommand "cat .env" Severity.high).reason.getD "").data) = true
    ∧ (checkBashCommand "cat .env.example" Severity.high).blocked = false
    ∧ (checkBashCommand "grep -r password ." Severity.high).blocked = false
    ∧ (checkBashCommand "grep -r password ." Severity.strict).blocked = true
    ∧ (checkFilePath "/home/user/.ssh/id_rsa" Severity.high).blocked = true
    ∧ (checkFilePath "/home/user/.ssh/id_rsa" Severity.high).pattern.map Rule.id
        = some "ssh-private-key"
    ∧ (checkFilePath "/home/user/.ssh/config" Severity.high).blocked = false := by
  decide

/-- C4: first-match stability: when an input (not allowlisted) is matched
by two or more active rules of a catalog, the decision's matched rule is
one firing at an index no later than any of them, that is the earliest
firing rule in declared order; concretely rm -rf /tmp ~/ and rm -rf ~ are
reported under the home-directory rule. -/
theorem first_match_stability :
    (∀ (allow : List (String → Bool)) (rules : List Rule) (s : String)
       (lvl : Severity) (i j : Nat) (r r' : Rule),
       allowMatches allow (normalizeInput s) = false →
       i < j → rules[i]? = some r → rules[j]? = some r' →
       ruleHits lvl (normalizeInput s) r = true →
       ruleHits lvl (normalizeInput s) r' = true →
       ∃ k m, k ≤ i ∧ rules[k]? = some m ∧
         ruleHits lvl (normalizeInput s) m = true ∧
         (classify allow rules s lvl).pattern = some m)
    ∧ (checkCommand "rm -rf /tmp ~/" Severity.high).pattern.map Rule.id
        = some "rm-home"
    ∧ (checkCommand "rm -rf ~" Severity.high).pattern.map Rule.id
        = some "rm-home" := by
  refine ⟨?_, by decide, by decide⟩
  intro allow rules s lvl i j r r' hA hij hi hj hr hr'
  obtain ⟨k, m, hk, hget, hhit, hfind⟩ :=
    findRule_first lvl (normalizeInput s) rules i r hi hr
  refine ⟨k, m, hk, hget, hhit, ?_⟩
  simp only [classify, hA, Bool.false_eq_true, if_false, hfind]

/-- Witness for first_match_stability: rm -rf $HOME ~ is matched by both
rm-home (index 0) and rm-home-var (index 1) of the command catalog, and
the classifier reports a rule at index 0. -/
theorem first_match_stability_witness :
    ∃ k m, k ≤ 0 ∧ PATTERNS[k]? = some m ∧
      ruleHits Severity.high (normalizeInput "rm -rf $HOME ~") m = true ∧
      (classify [] PATTERNS "rm -rf $HOME ~" Severity.high).pattern = some m :=
  first_match_stability.1 [] PATTERNS "rm -rf $HOME ~" Severity.high 0 1
    rmHomeRule rmHomeVarRule (by decide) (by decide) rfl rfl
    (by decide) (by decide)

/-- C5: the dispatcher fails open: any tool name outside the modeled
file tools and Bash (including an absent name) yields blocked false at
every level, and so does a missing or empty file path or command. -/
theorem dispatcher_fails_open :
    (∀ (name : Option String) (inp : ToolInput) (lvl : Severity),
       name ∉ ([some "Read", some "Edit", some "Write", some "Bash"] :
         List (Option String)) →
       (check name inp lvl).blocked = false)
    ∧ (∀ (name : Option String) (lvl : Severity),
        (check name ⟨none, none⟩ lvl).blocked = false)
    ∧ (∀ lvl : Severity,
        (check (some "Read") ⟨some "", none⟩ lvl).blocked = false)
    ∧ (∀ lvl : Severity,
        (check (some "Bash") ⟨none, some ""⟩ lvl).blocked = false) := by
  refine ⟨?_, ?_, fun lvl => rfl, fun lvl => rfl⟩
  · intro name inp lvl h
    have h1 : ¬(name = some "Read" ∨ name = some "Edit" ∨ name = some "Write") := by
      rintro (e | e | e) <;> exact h (by simp [e])
    have h2 : ¬name = some "Bash" := fun e => h (by simp [e])
    simp only [check, if_neg h1, if_neg h2]
    rfl
  · intro name lvl
    simp only [check]
    split
    · rfl
    · split
      · rfl
      · rfl

/-- Witness for dispatcher_fails_open: the Glob tool is outside the
modeled domains and its invocation is never blocked, even on a sensitive
pattern at strict level. -/
theorem dispatcher_fails_open_witness :
    (some "Glob") ∉ ([some "Read", some "Edit", some "Write", some "Bash"] :
      List (Option String)) ∧
    (check (some "Glob") ⟨some ".env", none⟩ Severity.strict).blocked = false :=
  ⟨by decide,
   dispatcher_fails_open.1 (some "Glob") ⟨some ".env", none⟩ Severity.strict
     (by decide)⟩

/-- C7: each hook process writes exactly one record to its output channel
and exits 0 for every parse result of its input, and a malformed body
(parse failure) yields the empty no-opinion record; this holds for the
modeled classifier hook main and for the auto-stage hook main. -/
theorem hook_protocol_single_record :
    (∀ (lvl : Severity) (parsed : Option HookInput),
       (runHookMain lvl parsed).1.length = 1 ∧ (runHookMain lvl parsed).2 = 0)
    ∧ (∀ lvl : Severity, runHookMain lvl none = ([OutRecord.empty], 0))
    ∧ (∀ (env : StageEnv) (parsed : Option AutoStageInput),
        (autoStageMain env parsed).stdout.length = 1 ∧
        (autoStageMain env parsed).exitCode = 0)
    ∧ (∀ env : StageEnv, (autoStageMain env none).stdout = ["\x7b\x7d"]) := by
  refine ⟨?_, fun lvl => rfl, ?_, fun env => (autoStage_shape env none).1⟩
  · intro lvl parsed
    cases parsed with
    | none => exact ⟨rfl, rfl⟩
    | some h => exact ⟨rfl, rfl⟩
  · intro env parsed
    obtain ⟨h1, h2⟩ := autoStage_shape env parsed
    exact ⟨by rw [h1]; rfl, h2⟩

/-- C8: classification is deterministic: any two runs of the classifier
relation on the same input and level produce the same decision, and the
classify function realizes the relation, so repeated calls agree. -/
theorem classify_deterministic :
    (∀ (allow : List (String → Bool)) (rules : List Rule) (s : String)
       (lvl : Severity) (d1 d2 : Decision),
       ClassifiesTo allow rules s lvl d1 → ClassifiesTo allow rules s lvl d2 →
       d1 = d2)
    ∧ (∀ (allow : List (String → Bool)) (rules : List Rule) (s : String)
        (lvl : Severity),
        ClassifiesTo allow rules s lvl (classify allow rules s lvl)) := by
  constructor
  · intro allow rules s lvl d1 d2 h1 h2
    cases h1 with
    | allowed hA1 =>
      cases h2 with
      | allowed hA2 => rfl
      | ruleBlock r hA2 hF2 => rw [hA1] at hA2; cases hA2
      | noMatch hA2 hF2 => rfl
    | ruleBlock r hA1 hF1 =>
      cases h2 with
      | allowed hA2 => rw [hA1] at hA2; cases hA2
      | ruleBlock r2 hA2 hF2 =>
        have := findSpec_det hF1 hF2
        cases this
        rfl
      | noMatch hA2 hF2 => cases findSpec_det hF1 hF2
    | noMatch hA1 hF1 =>
      cases h2 with
      | allowed hA2 => rfl
      | ruleBlock r2 hA2 hF2 => cases findSpec_det hF1 hF2
      | noMatch hA2 hF2 => rfl
  · exact classifiesTo_total

/-- Witness for classify_deterministic: a hand-built run on cat .env at
high level and the run realized by classify yield the same decision, the
block under the cat-env rule. -/
theorem classify_deterministic_witness :
    (⟨true, some catEnvRule, some catEnvRule.reason⟩ : Decision) =
      classify ALLOWLIST BASH_PATTERNS "cat .env" Severity.high := by
  have h1 : ClassifiesTo ALLOWLIST BASH_PATTERNS "cat .env" Severity.high
      ⟨true, some catEnvRule, some catEnvRule.reason⟩ := by
    apply ClassifiesTo.ruleBlock
    · decide
    · show FindSpec Severity.high (normalizeInput "cat .env")
        (catEnvRule :: [grepPasswordRule]) (some catEnvRule)
      exact FindSpec.head catEnvRule [grepPasswordRule] (by decide)
  exact classify_deterministic.1 ALLOWLIST BASH_PATTERNS "cat .env"
    Severity.high _ _ h1
    (classify_deterministic.2 ALLOWLIST BASH_PATTERNS "cat .env" Severity.high)

/-- C9: evaluation of the rm-to-mv hook. The commands rm -rf tilde,
rm -rf slash-star and rm -rf tilde-slash are blocked without rewrite, a
non-Bash tool, an empty command and a non-rm command produce no output
record, and an ordinary rm is rewritten to the mkdir-and-mv form; but rm
-rf / (no trailing character after the slash) is NOT blocked: the block
regexes only accept a slash followed by whitespace or a star, so the
command falls through to the rewrite path and is allowed, contradicting
the script's own header comment and the README, which state that rm -rf /
is blocked entirely. -/
theorem rm_to_mv_eval :
    rmToMvHook "20240101_000000" "Bash" "rm -rf /" =
      some (RmOut.allow
        "mkdir -p /tmp/rm_trash_20240101_000000 && mv / /tmp/rm_trash_20240101_000000/")
    ∧ rmToMvHook "20240101_000000" "Bash" "rm -rf ~" =
        some (RmOut.block rmBlockReason)
    ∧ rmToMvHook "20240101_000000" "Bash" "rm -rf /*" =
        some (RmOut.block rmBlockReason)
    ∧ rmToMvHook "20240101_000000" "Bash" "rm -rf ~/" =
        some (RmOut.block rmBlockReason)
    ∧ rmToMvHook "20240101_000000" "Read" "rm -rf /" = none
    ∧ rmToMvHook "20240101_000000" "Bash" "" = none
    ∧ rmToMvHook "20240101_000000" "Bash" "ls -la" = none
    ∧ rmToMvHook "20240101_000000" "Bash" "  rm -rf src/old" =
        some (RmOut.allow
          "mkdir -p /tmp/rm_trash_20240101_000000 && mv src/old /tmp/rm_trash_20240101_000000/") := by
  decide

/-- C10: the auto-stage hook writes exactly the empty record and exits 0
for every parseable input, in every environment: whether staging succeeds
or fails, whether the file is outside a git repository or the tool is not
Edit or Write, and whether the audit-log append throws, the output record
and the exit status never change. -/
theorem auto_stage_always_empty_record :
    ∀ (env env' : StageEnv) (d : AutoStageInput),
      (autoStageMain env (some d)).stdout = ["\x7b\x7d"] ∧
      (autoStageMain env (some d)).exitCode = 0 ∧
      (autoStageMain env (some d)).stdout = (autoStageMain env' (some d)).stdout := by
  intro env env' d
  obtain ⟨h1, h2⟩ := autoStage_shape env (some d)
  obtain ⟨h1', _⟩ := autoStage_shape env' (some d)
  exact ⟨h1, h2, by rw [h1, h1']⟩
